import Mathlib

/-!
Verification development for the axcommunicator order-dispatch service.

The Go sources are shallowly embedded: Go strings become lists of unicode
characters (`GoStr`) with `goLen` for Go's byte-counting `len`, byte slices
become `List Nat`, Go maps become association lists, and external
collaborators (filesystem, SHA-256, MIME sniffing, UUIDs, SMTP, the bot API,
the database) become explicit oracle parameters or threaded state.
-/

namespace Axc

/-- Go strings, modelled as lists of unicode characters. -/
abbrev GoStr := List Char

/-- Coerce a Lean string literal to the Go-string model. -/
def gs (s : String) : GoStr := s.toList

/-- Go `len(s)` on a string counts UTF-8 bytes, not characters. -/
def goLen (s : GoStr) : Nat := (s.map Char.utf8Size).sum

/-- The `\x7b` character. -/
def lbrace : Char := Char.ofNat 123

/-- The `\x7d` character. -/
def rbrace : Char := Char.ofNat 125

/-- The `\x60` character. -/
def backtickChar : Char := Char.ofNat 96

/-- Fuel-driven worker for `strings.ReplaceAll`: replaces non-overlapping
occurrences of `pat` left to right, never rescanning replaced text.  One
unit of fuel is spent per step and every step consumes at least one
character, so `s.length` fuel is always enough. -/
def replaceAllF : Nat → GoStr → GoStr → GoStr → GoStr
  | 0, _, _, s => s
  | _ + 1, _, _, [] => []
  | fuel + 1, pat, rep, c :: rest =>
    if pat.isPrefixOf (c :: rest) && !pat.isEmpty then
      rep ++ replaceAllF fuel pat rep ((c :: rest).drop pat.length)
    else
      c :: replaceAllF fuel pat rep rest

/-- `strings.ReplaceAll s pat rep` (argument order: pattern, replacement,
subject).  No call site in this repository passes an empty pattern; the
worker leaves the subject unchanged in that case. -/
def replaceAll (pat rep s : GoStr) : GoStr := replaceAllF s.length pat rep s

theorem replaceAllF_nilSubject (fuel : Nat) (pat rep : GoStr) :
    replaceAllF fuel pat rep [] = [] := by
  cases fuel <;> rfl

theorem replaceAllF_fuelIrrel (pat rep : GoStr) :
    ∀ f1 f2 s, s.length ≤ f1 → s.length ≤ f2 →
      replaceAllF f1 pat rep s = replaceAllF f2 pat rep s := by
  intro f1
  induction f1 with
  | zero =>
    intro f2 s hs _
    have : s = [] := List.length_eq_zero.mp (Nat.le_zero.mp hs)
    subst this
    rw [replaceAllF_nilSubject, replaceAllF_nilSubject]
  | succ n ih =>
    intro f2 s hs1 hs2
    match s with
    | [] => rw [replaceAllF_nilSubject, replaceAllF_nilSubject]
    | c :: rest =>
      match f2 with
      | 0 => exact absurd hs2 (by simp)
      | m + 1 =>
        rw [replaceAllF, replaceAllF]
        by_cases hc : (pat.isPrefixOf (c :: rest) && !pat.isEmpty) = true
        · rw [if_pos hc, if_pos hc]
          have h1 : 1 ≤ pat.length := by
            rcases pat with _ | ⟨p, ps⟩
            · simp at hc
            · simp
          have hd := List.length_drop pat.length (c :: rest)
          have hsl : (c :: rest).length = rest.length + 1 := rfl
          congr 1
          exact ih m _ (by omega) (by omega)
        · rw [if_neg hc, if_neg hc]
          have hsl : (c :: rest).length = rest.length + 1 := rfl
          congr 1
          exact ih m rest (by omega) (by omega)

theorem replaceAll_nil (pat rep : GoStr) : replaceAll pat rep [] = [] := rfl

theorem replaceAll_cons (pat rep : GoStr) (c : Char) (rest : GoStr) :
    replaceAll pat rep (c :: rest)
      = if pat.isPrefixOf (c :: rest) && !pat.isEmpty then
          rep ++ replaceAll pat rep ((c :: rest).drop pat.length)
        else
          c :: replaceAll pat rep rest := by
  show replaceAllF (rest.length + 1) pat rep (c :: rest) = _
  rw [replaceAllF]
  by_cases hc : (pat.isPrefixOf (c :: rest) && !pat.isEmpty) = true
  · rw [if_pos hc, if_pos hc]
    congr 1
    apply replaceAllF_fuelIrrel
    · have h1 : 1 ≤ pat.length := by
        rcases pat with _ | ⟨p, ps⟩
        · simp at hc
        · simp
      have hd := List.length_drop pat.length (c :: rest)
      have hsl : (c :: rest).length = rest.length + 1 := rfl
      omega
    · exact Nat.le_refl _
  · rw [if_neg hc, if_neg hc]
    congr 1

/-- Concatenation of the images of `f` over the characters of a string. -/
def mapConcat (f : Char → GoStr) : GoStr → GoStr
  | [] => []
  | c :: rest => f c ++ mapConcat f rest

theorem mapConcat_congr (f g : Char → GoStr) (s : GoStr)
    (h : ∀ x ∈ s, f x = g x) : mapConcat f s = mapConcat g s := by
  induction s with
  | nil => rfl
  | cons c rest ih =>
    show f c ++ mapConcat f rest = g c ++ mapConcat g rest
    rw [h c (List.mem_cons_self c rest), ih (fun x hx => h x (List.mem_cons_of_mem c hx))]

theorem mapConcat_id (s : GoStr) : mapConcat (fun x => [x]) s = s := by
  induction s with
  | nil => rfl
  | cons c rest ih => show c :: mapConcat (fun x => [x]) rest = c :: rest; rw [ih]

theorem mapConcat_append (f : Char → GoStr) (a b : GoStr) :
    mapConcat f (a ++ b) = mapConcat f a ++ mapConcat f b := by
  induction a with
  | nil => rfl
  | cons c rest ih =>
    show f c ++ mapConcat f (rest ++ b) = (f c ++ mapConcat f rest) ++ mapConcat f b
    rw [ih, List.append_assoc]

theorem mapConcat_mapConcat (f g : Char → GoStr) (s : GoStr) :
    mapConcat g (mapConcat f s) = mapConcat (fun x => mapConcat g (f x)) s := by
  induction s with
  | nil => rfl
  | cons c rest ih =>
    show mapConcat g (f c ++ mapConcat f rest) = _
    rw [mapConcat_append, ih]
    rfl

/-- Replacing a single-character pattern `c` rewrites each occurrence of `c`
independently. -/
def substChar (c : Char) (rep : GoStr) (x : Char) : GoStr :=
  if x = c then rep else [x]

theorem replaceAll_single (c : Char) (rep s : GoStr) :
    replaceAll [c] rep s = mapConcat (substChar c rep) s := by
  induction s with
  | nil => rfl
  | cons x rest ih =>
    rw [replaceAll_cons]
    by_cases hx : x = c
    · subst hx
      have hpre : ([x].isPrefixOf (x :: rest) && !([x].isEmpty)) = true := by
        simp [List.isPrefixOf]
      rw [if_pos hpre]
      show rep ++ replaceAll [x] rep rest = mapConcat (substChar x rep) (x :: rest)
      rw [ih]
      show _ = substChar x rep x ++ mapConcat (substChar x rep) rest
      rw [substChar, if_pos rfl]
    · have hpre : ([c].isPrefixOf (x :: rest) && !([c].isEmpty)) = false := by
        simp [List.isPrefixOf]
        exact fun hcx => hx hcx.symm
      rw [if_neg (by rw [hpre]; simp)]
      show x :: replaceAll [c] rep rest = mapConcat (substChar c rep) (x :: rest)
      rw [ih]
      show _ = substChar c rep x ++ mapConcat (substChar c rep) rest
      rw [substChar, if_neg hx]
      rfl

/-- If the head character of the pattern never occurs in the subject, the
replacement is the identity. -/
theorem replaceAll_of_head_not_mem (c : Char) (pat rep s : GoStr)
    (h : c ∉ s) : replaceAll (c :: pat) rep s = s := by
  induction s with
  | nil => rfl
  | cons x rest ih =>
    rw [replaceAll_cons]
    have hcx : c ≠ x := fun hcx => h (hcx ▸ List.mem_cons_self x rest)
    have hpre : ((c :: pat).isPrefixOf (x :: rest) && !(c :: pat).isEmpty) = false := by
      simp [List.isPrefixOf]
      exact fun hcx' => absurd hcx' hcx
    rw [if_neg (by rw [hpre]; simp)]
    rw [ih (fun hm => h (List.mem_cons_of_mem x hm))]

/-- utils.FillTemplate: for each key/value pair, replace the token
`\x7b key \x7d` by the value.  The Go map is modelled as an association
list (Go map iteration order is unspecified; the claims proved below do not
depend on the order) and each value carries the `%v` string form that the
code computes. -/
def FillTemplate (template : GoStr) (data : List (GoStr × GoStr)) : GoStr :=
  data.foldl (fun res kv => replaceAll (lbrace :: (kv.1 ++ [rbrace])) kv.2 res) template

/-- telegram.go renderTemplate: the same replacement loop as
utils.FillTemplate (the source duplicates the code; the error result of the
Go function is always nil). -/
def renderTemplate (template : GoStr) (data : List (GoStr × GoStr)) : GoStr :=
  data.foldl (fun res kv => replaceAll (lbrace :: (kv.1 ++ [rbrace])) kv.2 res) template

theorem fillTemplate_no_lbrace (template : GoStr) (data : List (GoStr × GoStr))
    (h : lbrace ∉ template) : FillTemplate template data = template := by
  induction data with
  | nil => rfl
  | cons kv rest ih =>
    show FillTemplate (replaceAll (lbrace :: (kv.1 ++ [rbrace])) kv.2 template) rest = template
    rw [replaceAll_of_head_not_mem lbrace _ _ _ h]
    exact ih

/-- The reserved characters escaped for Telegram MarkdownV2, in source
order (underscore, asterisk, brackets, parentheses, tilde, \x60, angle,
hash, plus, minus, equals, pipe, braces, dot, bang). -/
def tgSpecials : GoStr :=
  ['_', '*', '[', ']', '(', ')', '~', backtickChar, '>', '#',
   '+', '-', '=', '|', lbrace, rbrace, '.', '!']

/-- utils.EscapeMarkdownV2: sequentially ReplaceAll each reserved character
with a backslash followed by that character. -/
def EscapeMarkdownV2 (text : GoStr) : GoStr :=
  tgSpecials.foldl (fun t s => replaceAll [s] ['\\', s] t) text

/-- Pointwise form of the escaping transform. -/
def escChar (specs : GoStr) (x : Char) : GoStr :=
  if x ∈ specs then ['\\', x] else [x]

theorem escape_foldl :
    ∀ specs : GoStr, '\\' ∉ specs → specs.Nodup → ∀ text : GoStr,
      specs.foldl (fun t s => replaceAll [s] ['\\', s] t) text
        = mapConcat (escChar specs) text := by
  intro specs
  induction specs with
  | nil =>
    intro _ _ text
    show text = mapConcat (escChar []) text
    rw [mapConcat_congr _ (fun x => [x]) text (by intro x _; simp [escChar]),
      mapConcat_id]
  | cons c cs ih =>
    intro hb hn text
    have hb' : '\\' ∉ cs := fun hm => hb (List.mem_cons_of_mem c hm)
    have hcb : c ≠ '\\' := fun hcb => hb (hcb ▸ List.mem_cons_self c cs)
    have hcn : c ∉ cs := (List.nodup_cons.mp hn).1
    have hn' : cs.Nodup := (List.nodup_cons.mp hn).2
    show List.foldl _ (replaceAll [c] ['\\', c] text) cs = _
    rw [ih hb' hn' _, replaceAll_single, mapConcat_mapConcat]
    apply mapConcat_congr
    intro x _
    by_cases hx : x = c
    · subst hx
      show mapConcat (escChar cs) (substChar x ['\\', x] x) = escChar (x :: cs) x
      rw [substChar, if_pos rfl]
      show escChar cs '\\' ++ (escChar cs x ++ []) = _
      rw [escChar, if_neg (by exact hb'), escChar, if_neg hcn,
        escChar, if_pos (List.mem_cons_self x cs)]
      rfl
    · show mapConcat (escChar cs) (substChar c ['\\', c] x) = escChar (c :: cs) x
      rw [substChar, if_neg hx]
      show escChar cs x ++ [] = escChar (c :: cs) x
      rw [List.append_nil]
      by_cases hxs : x ∈ cs
      · rw [escChar, if_pos hxs, escChar, if_pos (List.mem_cons_of_mem c hxs)]
      · rw [escChar, if_neg hxs, escChar,
          if_neg (by simp [List.mem_cons, hx, hxs])]

/-- EscapeMarkdownV2 inserts exactly one backslash before every occurrence
of a reserved character and leaves all other characters unchanged. -/
theorem escapeMarkdownV2_eq (text : GoStr) :
    EscapeMarkdownV2 text = mapConcat (escChar tgSpecials) text :=
  escape_foldl tgSpecials (by decide) (by decide) text

theorem escape_of_no_specials (text : GoStr)
    (h : ∀ c ∈ text, c ∉ tgSpecials) : EscapeMarkdownV2 text = text := by
  rw [escapeMarkdownV2_eq,
    mapConcat_congr _ (fun x => [x]) text (by intro x hx; simp [escChar, h x hx]),
    mapConcat_id]

theorem goLen_replicate (n : Nat) (c : Char) :
    goLen (List.replicate n c) = n * c.utf8Size := by
  induction n with
  | zero => simp [goLen]
  | succ m ih =>
    show goLen (c :: List.replicate m c) = _
    show c.utf8Size + goLen (List.replicate m c) = _
    rw [ih]
    ring

/-- utils.Contains: linear scan for an exact string match. -/
def Contains : List GoStr → GoStr → Bool
  | [], _ => false
  | s :: rest, item => if s = item then true else Contains rest item

theorem Contains_eq_mem (l : List GoStr) (x : GoStr) :
    Contains l x = decide (x ∈ l) := by
  induction l with
  | nil => rfl
  | cons s rest ih =>
    show (if s = x then true else Contains rest x) = decide (x ∈ s :: rest)
    by_cases h : s = x
    · simp [h]
    · simp [h, ih, List.mem_cons]
      exact fun hxs => absurd hxs.symm h

/-- The language negotiation performed inline by HandleProjectOrder:
request-body language, then the Accept-Language header, then "en";
afterwards, when the result is not a supported language, the first
supported language (or "en" when the tenant supports none) replaces it. -/
def negotiateLanguage (supportedLangs : List GoStr)
    (bodyLang acceptLang : GoStr) : GoStr :=
  let lang :=
    if bodyLang = [] then (if acceptLang = [] then gs "en" else acceptLang)
    else bodyLang
  if Contains supportedLangs lang then lang
  else
    match supportedLangs with
    | [] => gs "en"
    | first :: _ => first

/-- Modelled from the spec: `negotiateLanguage(profile, requested)` as §4.1
words it — if `requested` is empty, fall back to the caller's locale hint,
then to "en"; if the resulting code is not in the profile's supported set,
substitute the profile's first supported language (or "en" if the profile
declares none). -/
def negotiateLanguageSpec (supportedLangs : List GoStr)
    (requested localeHint : GoStr) : GoStr :=
  let code :=
    if requested = [] then (if localeHint = [] then gs "en" else localeHint)
    else requested
  if code ∈ supportedLangs then code
  else
    match supportedLangs with
    | [] => gs "en"
    | first :: _ => first

/-- The 5-byte PDF signature "%PDF-", as bytes. -/
def pdfMagic : List Nat := [37, 80, 68, 70, 45]

/-- utils.ValidatePDF.  `sniffIsPdf` models the external library call
filetype.IsMIME(data, "application/pdf"). -/
def ValidatePDF (sniffIsPdf : List Nat → Bool) (data : List Nat) : Bool :=
  if data.length < pdfMagic.length then false
  else pdfMagic.isPrefixOf data && sniffIsPdf data

/-- The temp-file storage area visible to the file store: path ↦ bytes. -/
structure FsState where
  files : List (GoStr × List Nat)
  deriving DecidableEq, Repr

/-- Reading a stored file back. -/
def readFs (st : FsState) (path : GoStr) : Option (List Nat) :=
  List.lookup path st.files

/-- os.Remove on the store (delete-if-exists). -/
def removeFs (st : FsState) (path : GoStr) : FsState :=
  ⟨st.files.filter (fun e => e.1 != path)⟩

/-- utils.MaxFileSize = 10 << 20 bytes. -/
def MaxFileSize : Nat := 10 * 2 ^ 20

inductive SaveError where
  | tooLarge
  | invalidType
  deriving DecidableEq, Repr

/-- utils.FileInfo.  The CreatedAt/ExpiresAt wall-clock fields are outside
the embedding. -/
structure FileInfo where
  uuid : GoStr
  path : GoStr
  name : GoStr
  size : Nat
  sha256 : GoStr
  mimeType : GoStr
  deriving DecidableEq, Repr

/-- The file name `prefix + "_" + fileID + ".pdf"` built by SaveTempFile. -/
def tempName (label fileID : GoStr) : GoStr :=
  label ++ gs "_" ++ fileID ++ gs ".pdf"

/-- The full path under the dedicated temp directory. -/
def tempPath (label fileID : GoStr) : GoStr :=
  gs "app/storage/temp/" ++ tempName label fileID

/-- utils.SaveTempFile.  External collaborators are parameters:
`detectMime` models http.DetectContentType, `sha256hex` models
sha256.Sum256 followed by hex.EncodeToString, and `fileID` is the value
produced by uuid.New().String().  Directory creation and the write itself
are modelled as succeeding; the deferred-deletion goroutine and the
timestamps are outside the embedding.  In the source the write happens
before the sniff, then the invalid branch deletes the written file; the two
branches here return exactly those outcomes. -/
def SaveTempFile (detectMime : List Nat → GoStr) (sha256hex : List Nat → GoStr)
    (data : List Nat) (label fileID : GoStr) (st : FsState) :
    Except SaveError FileInfo × FsState :=
  if data.length > MaxFileSize then
    (Except.error SaveError.tooLarge, st)
  else if (gs "application/pdf").isPrefixOf (detectMime data) then
    (Except.ok
      ⟨fileID, tempPath label fileID, tempName label fileID, data.length,
        sha256hex data, detectMime data⟩,
      ⟨(tempPath label fileID, data) :: st.files⟩)
  else
    (Except.error SaveError.invalidType,
      removeFs ⟨(tempPath label fileID, data) :: st.files⟩ (tempPath label fileID))

/-- config.TelegramConfig. -/
structure TelegramConfig where
  botToken : GoStr
  chatID : GoStr
  deriving DecidableEq, Repr

/-- config.TelegramConfig.Configured(): both fields non-empty. -/
def TelegramConfig.Configured (tc : TelegramConfig) : Bool :=
  tc.botToken != [] && tc.chatID != []

/-- config.SMTPConfig (carried for completeness; SMTP fields only feed the
email transport, which is modelled as an oracle). -/
structure SMTPConfig where
  user : GoStr
  password : GoStr
  host : GoStr
  port : GoStr
  fromAddr : GoStr
  admin : GoStr
  deriving DecidableEq, Repr

/-- config.EmailTemplate. -/
structure EmailTemplate where
  subject : GoStr
  body : GoStr
  deriving DecidableEq, Repr

/-- config.ServiceConfig; Go maps become association lists. -/
structure ServiceConfig where
  name : GoStr
  smtp : SMTPConfig
  telegram : TelegramConfig
  emailTemplates : List (GoStr × EmailTemplate)
  telegramTemplates : List (GoStr × GoStr)
  telegramTemplatePaths : List (GoStr × GoStr)
  emailTemplateSubjectPaths : List (GoStr × GoStr)
  emailTemplateBodyPaths : List (GoStr × GoStr)
  supportedLangs : List GoStr
  deriving DecidableEq, Repr

/-- Go map indexing `m[k]` on string-valued maps: the zero value "" when
the key is absent. -/
def mgetD (m : List (GoStr × GoStr)) (k : GoStr) : GoStr :=
  (List.lookup k m).getD []

inductive TgError where
  | notConfigured
  | invalidTemplate
  | templateLoadFailed
  | messageTooLong
  | sendFailed
  | apiError
  deriving DecidableEq, Repr

/-- The inline-template fallback at the end of getLocalizedTemplate. -/
def tgInlineTemplate (svc : ServiceConfig) (lang : GoStr) : Except TgError GoStr :=
  match List.lookup lang svc.telegramTemplates with
  | some t => if t = [] then Except.error TgError.invalidTemplate else Except.ok t
  | none => Except.error TgError.invalidTemplate

/-- The language-selection step opening getLocalizedTemplate: a language
with no inline-template entry is replaced by the first supported language;
none when the tenant supports no languages. -/
def tgSelectLang (svc : ServiceConfig) (lang0 : GoStr) : Option GoStr :=
  if (List.lookup lang0 svc.telegramTemplates).isSome then some lang0
  else
    match svc.supportedLangs with
    | [] => none
    | first :: _ => some first

/-- telegram.go getLocalizedTemplate.  `readDisk` models os.ReadFile at
render time, so a configured path is consulted afresh on every call. -/
def getLocalizedTemplate (readDisk : GoStr → Option GoStr) (svc : ServiceConfig)
    (lang0 : GoStr) : Except TgError GoStr :=
  match tgSelectLang svc lang0 with
  | none => Except.error TgError.invalidTemplate
  | some lang =>
    match List.lookup lang svc.telegramTemplatePaths with
    | some path =>
      if path = [] then tgInlineTemplate svc lang
      else
        match readDisk path with
        | some content => Except.ok content
        | none => Except.error TgError.templateLoadFailed
    | none => tgInlineTemplate svc lang

/-- telegram.go maxMessageLength. -/
def maxMessageLength : Nat := 4096

structure TelegramResponse where
  ok : Bool
  description : GoStr
  errorCode : Int
  deriving DecidableEq, Repr

/-- The tail of SendTelegramNotification: propagate a transport error, and
treat an `ok:false` API response as a delivery failure. -/
def tgHandleResponse (r : Except TgError TelegramResponse) : Except TgError Unit :=
  match r with
  | Except.error e => Except.error e
  | Except.ok response =>
    if response.ok then Except.ok () else Except.error TgError.apiError

/-- The body of SendTelegramNotification after the template lookup:
propagate a template error; otherwise render, escape, enforce the length
cap (Go's len() counts UTF-8 bytes, `goLen`), and hand the full escaped
text to the transport. -/
def tgAfterTemplate (sendReq : GoStr → Except TgError TelegramResponse)
    (data : List (GoStr × GoStr)) :
    Except TgError GoStr → Except TgError Unit
  | Except.error e => Except.error e
  | Except.ok template =>
    if goLen (EscapeMarkdownV2 (renderTemplate template data)) > maxMessageLength then
      Except.error TgError.messageTooLong
    else
      tgHandleResponse (sendReq (EscapeMarkdownV2 (renderTemplate template data)))

/-- utils.SendTelegramNotification.  `sendReq` models sendTelegramRequest
(the HTTP POST to the bot API) and receives the exact text handed to the
transport. -/
def SendTelegramNotification (readDisk : GoStr → Option GoStr)
    (sendReq : GoStr → Except TgError TelegramResponse)
    (svc : ServiceConfig) (lang : GoStr) (data : List (GoStr × GoStr)) :
    Except TgError Unit :=
  if !svc.telegram.Configured then Except.error TgError.notConfigured
  else tgAfterTemplate sendReq data (getLocalizedTemplate readDisk svc lang)

/-! ## Rate-limit middleware (part_002 lines 52-76)

`rate.NewLimiter(rate.Every(time.Minute/10), 10)` is called once when the
middleware closure is built.  Inside the handler, an IP absent from the map
is bound to that one shared limiter (`l = limiter`), not to a fresh one.
The bucket model covers a single refill window: each admitted request
consumes one token and no token is refilled, matching the burst-10
behaviour of the Go limiter within an instant. -/

/-- Middleware state: the per-IP map of limiter identities and the token
buckets standing behind those identities. -/
structure RLState where
  limiters : List (GoStr × Nat)
  buckets : List (Nat × Nat)
  deriving DecidableEq, Repr

/-- The identity of the single limiter created at middleware setup. -/
def sharedLimiterId : Nat := 0

/-- State when the middleware starts serving: empty IP map, one bucket with
burst capacity 10. -/
def rlInitial : RLState := ⟨[], [(sharedLimiterId, 10)]⟩

/-- `l, exists := limiters[clientIP]; if !exists { l = limiter; ... }`. -/
def rlGetLimiter (ip : GoStr) (st : RLState) : Nat × RLState :=
  match List.lookup ip st.limiters with
  | some l => (l, st)
  | none => (sharedLimiterId, ⟨(ip, sharedLimiterId) :: st.limiters, st.buckets⟩)

def setBucket (lid tokens : Nat) (l : List (Nat × Nat)) : List (Nat × Nat) :=
  l.map (fun e => if e.1 = lid then (lid, tokens) else e)

/-- One request through RateLimitMiddleware: true means a token was
available and the request proceeds; false means `l.Wait` blocks until the
request context gives up. -/
def rlRequest (ip : GoStr) (st : RLState) : Bool × RLState :=
  let r := rlGetLimiter ip st
  match List.lookup r.1 r.2.buckets with
  | some (t + 1) => (true, ⟨r.2.limiters, setBucket r.1 t r.2.buckets⟩)
  | _ => (false, r.2)

/-- A burst of requests arriving within one window, in order. -/
def rlRun : List GoStr → RLState → List Bool × RLState
  | [], st => ([], st)
  | ip :: rest, st =>
    let r := rlRequest ip st
    let rs := rlRun rest r.2
    (r.1 :: rs.1, rs.2)

/-! ## Order intake pipeline (part_002 lines 127-284, the string-language
handler variant wired to POST /order) -/

/-- handlers.ProjectOrder. -/
structure ProjectOrder where
  fullName : GoStr
  companyName : GoStr
  country : GoStr
  address : GoStr
  contactInfo : GoStr
  projectLink : GoStr
  paymentMethod : GoStr
  startDate : GoStr
  language : GoStr
  briefFile : List Nat
  specificationPdf : List Nat
  invoicePdf : List Nat
  contractPdf : List Nat
  deriving DecidableEq, Repr

/-- The project_orders audit row (created_at, an external clock value, is
outside the embedding). -/
structure OrderRow where
  serviceName : GoStr
  fullName : GoStr
  companyName : GoStr
  contactInfo : GoStr
  projectLink : GoStr
  paymentMethod : GoStr
  startDate : GoStr
  language : GoStr
  ipAddress : GoStr
  userAgent : GoStr
  deriving DecidableEq, Repr

/-- handlers.logOrderToDB: the INSERT row.  The negotiated language is
received as `lang`, but the language column is populated from the order's
own Language field; the `lang` argument is not referenced. -/
def logOrderToDB (serviceName lang : GoStr) (order : ProjectOrder)
    (realIP userAgent : GoStr) : OrderRow :=
  { serviceName := serviceName
    fullName := order.fullName
    companyName := order.companyName
    contactInfo := order.contactInfo
    projectLink := order.projectLink
    paymentMethod := order.paymentMethod
    startDate := order.startDate
    language := order.language
    ipAddress := realIP
    userAgent := userAgent }

/-- The files map built by saveOrderFiles, in a fixed order (the Go code
iterates a map whose order is unspecified; the labels are pairwise
distinct, so the stored set is the same for every order). -/
def orderFiles (order : ProjectOrder) : List (GoStr × List Nat) :=
  [(gs "specification", order.specificationPdf),
   (gs "invoice", order.invoicePdf),
   (gs "contract", order.contractPdf)]
    ++ (if order.briefFile.length > 0 then [(gs "brief", order.briefFile)] else [])

def removeMany (paths : List GoStr) (st : FsState) : FsState :=
  paths.foldl (fun s p => removeFs s p) st

/-- handlers.saveOrderFiles: saves each file through SaveTempFile; on the
first failure the already-written files are removed and the error
propagates.  `uuidGen` supplies the uuid.New() value for each save. -/
def saveOrderFiles (detectMime : List Nat → GoStr) (sha256hex : List Nat → GoStr)
    (uuidGen : Nat → GoStr) :
    List (GoStr × List Nat) → Nat → FsState → List (GoStr × GoStr) →
      Except SaveError (List (GoStr × GoStr)) × FsState
  | [], _, st, acc => (Except.ok acc.reverse, st)
  | (label, content) :: rest, idx, st, acc =>
    match SaveTempFile detectMime sha256hex content label (uuidGen idx) st with
    | (Except.ok fi, st1) =>
      saveOrderFiles detectMime sha256hex uuidGen rest (idx + 1) st1
        ((label, fi.path) :: acc)
    | (Except.error e, st1) => (Except.error e, removeMany (acc.map Prod.snd) st1)

/-- filepath.Base for the slash-separated paths the store produces. -/
def baseName (path : GoStr) : GoStr :=
  (path.reverse.takeWhile (fun c => c != '/')).reverse

structure EmailAttachment where
  name : GoStr
  content : List Nat
  deriving DecidableEq, Repr

/-- utils.PrepareAttachments: read back each stored path, skipping
unreadable entries; fail when nothing could be read. -/
def PrepareAttachments (st : FsState) (filePaths : List (GoStr × GoStr)) :
    Except Unit (List EmailAttachment) :=
  if (filePaths.filterMap
      (fun e => (readFs st e.2).map (fun c => EmailAttachment.mk (baseName e.2) c))).length = 0
  then Except.error ()
  else Except.ok (filePaths.filterMap
    (fun e => (readFs st e.2).map (fun c => EmailAttachment.mk (baseName e.2) c)))

/-- The built-in email subject used when no subject template file applies. -/
def defaultSubject : GoStr := gs "Order Confirmation"

/-- The built-in email body used when no body template file applies. -/
def defaultBody : GoStr :=
  gs "Order received VibeCoders Club by Aleksandr Shaman - www.codcl.com"

/-- The email subject/body resolution inlined in HandleProjectOrder: only
the per-language file path is consulted (the inline EmailTemplates map is
not), and when no path is configured or the read fails the built-in
default text is kept — there is no error path. -/
def resolveEmailPart (readDisk : GoStr → Option GoStr)
    (paths : List (GoStr × GoStr)) (lang : GoStr) (dflt : GoStr)
    (data : List (GoStr × GoStr)) : GoStr :=
  if mgetD paths lang = [] then dflt
  else
    match readDisk (mgetD paths lang) with
    | some raw => FillTemplate raw data
    | none => dflt

/-- The templateData map built by the handler, as an association list in
source order (all values are strings in this handler variant). -/
def templateData (order : ProjectOrder) (lang : GoStr) (svc : ServiceConfig) :
    List (GoStr × GoStr) :=
  [(gs "full_name", order.fullName),
   (gs "company", order.companyName),
   (gs "contact", order.contactInfo),
   (gs "project_link", order.projectLink),
   (gs "payment", order.paymentMethod),
   (gs "start_date", order.startDate),
   (gs "language", lang),
   (gs "service_name", svc.name)]

/-- A recorded invocation of utils.SendOrderEmail. -/
structure EmailCall where
  svc : ServiceConfig
  subject : GoStr
  body : GoStr
  recipient : GoStr
  attachments : List EmailAttachment
  deriving DecidableEq, Repr

/-- A recorded invocation of utils.SendTelegramNotification. -/
structure TgCall where
  svc : ServiceConfig
  lang : GoStr
  data : List (GoStr × GoStr)
  deriving DecidableEq, Repr

/-- Everything observable about one HandleProjectOrder request: HTTP status
and JSON body, the recorded channel invocations, the attempted audit row,
the database rows after the request and the final temp-file store. -/
structure HandlerResult where
  status : Nat
  body : List (GoStr × GoStr)
  emailCall : Option EmailCall
  tgCall : Option TgCall
  auditAttempt : Option OrderRow
  dbRows : List OrderRow
  fs : FsState
  deriving DecidableEq, Repr

def errResult (code : Nat) (msg : GoStr) (st : FsState)
    (dbRows : List OrderRow) : HandlerResult :=
  { status := code, body := [(gs "error", msg)], emailCall := none,
    tgCall := none, auditAttempt := none, dbRows := dbRows, fs := st }

/-- handlers.HandleProjectOrder from JSON-decode success onward.  Oracles:
`sniffIsPdf` (filetype.IsMIME), `detectMime` (http.DetectContentType inside
the file store), `sha256hex`, `uuidGen`, `readDisk` (template file reads at
render time), `emailOutcome` and `tgOutcome` (the delivery results, which
the code discards with `_ =`), `dbOk` (whether the audit INSERT commits —
its error is likewise discarded).  `svcLookup` is config.GetService applied
to the X-Service-Name header.  The language fallback chain runs before the
service lookup in the source and does not read the service, so composing it
with the supported-language substitution in `negotiateLanguage` preserves
behaviour.  The deferred cleanupFiles removes the saved files after the
response is written. -/
def HandleProjectOrder
    (sniffIsPdf : List Nat → Bool) (detectMime : List Nat → GoStr)
    (sha256hex : List Nat → GoStr) (uuidGen : Nat → GoStr)
    (readDisk : GoStr → Option GoStr)
    (emailOutcome : EmailCall → Bool) (tgOutcome : TgCall → Except TgError Unit)
    (dbOk : Bool)
    (order : ProjectOrder) (serviceName acceptLang : GoStr)
    (svcLookup : Option ServiceConfig)
    (realIP userAgent : GoStr)
    (st : FsState) (dbRows : List OrderRow) : HandlerResult :=
  if order.fullName = [] ∨ order.contactInfo = [] ∨ order.paymentMethod = [] then
    errResult 400 (gs "Missing required fields") st dbRows
  else if ValidatePDF sniffIsPdf order.specificationPdf = false
      ∨ ValidatePDF sniffIsPdf order.invoicePdf = false
      ∨ ValidatePDF sniffIsPdf order.contractPdf = false then
    errResult 400 (gs "Invalid PDF files") st dbRows
  else if serviceName = [] then
    errResult 400 (gs "Missing X-Service-Name") st dbRows
  else
    match svcLookup with
    | none => errResult 400 (gs "Service not configured") st dbRows
    | some svc =>
      let lang := negotiateLanguage svc.supportedLangs order.language acceptLang
      match saveOrderFiles detectMime sha256hex uuidGen (orderFiles order) 0 st [] with
      | (Except.error _, st1) => errResult 500 (gs "Failed to save files") st1 dbRows
      | (Except.ok filePaths, st1) =>
        let data := templateData order lang svc
        let subject :=
          resolveEmailPart readDisk svc.emailTemplateSubjectPaths lang defaultSubject data
        let bodyTxt :=
          resolveEmailPart readDisk svc.emailTemplateBodyPaths lang defaultBody data
        let emailCall : Option EmailCall :=
          match PrepareAttachments st1 filePaths with
          | Except.ok atts => some ⟨svc, subject, bodyTxt, order.contactInfo, atts⟩
          | Except.error _ => none
        let row := logOrderToDB serviceName lang order realIP userAgent
        { status := 200,
          body := [(gs "status", gs "success"), (gs "service", serviceName),
            (gs "lang", lang)],
          emailCall := emailCall,
          tgCall := some ⟨svc, lang, data⟩,
          auditAttempt := some row,
          dbRows := if dbOk then dbRows ++ [row] else dbRows,
          fs := removeMany (filePaths.map Prod.snd) st1 }

/-! ## Claims -/

/-- C2: language negotiation is a total, deterministic function: it agrees
pointwise with the spec's description (empty request → locale hint → "en",
then substitution of the first supported language, or "en" when the list is
empty); with supported languages ["en","ru"], an empty request with empty
Accept-Language yields "en" and a request for "fr" yields "en".  Totality
and determinism are inherent: `negotiateLanguage` is a total function of
its arguments. -/
theorem negotiateLanguage_spec :
    (∀ (supported : List GoStr) (bodyLang acceptLang : GoStr),
      negotiateLanguage supported bodyLang acceptLang
        = negotiateLanguageSpec supported bodyLang acceptLang)
    ∧ negotiateLanguage [gs "en", gs "ru"] [] [] = gs "en"
    ∧ negotiateLanguage [gs "en", gs "ru"] (gs "fr") [] = gs "en" := by
  refine ⟨?_, by decide, by decide⟩
  intro supported bodyLang acceptLang
  simp only [negotiateLanguage, negotiateLanguageSpec, Contains_eq_mem]
  by_cases hm :
      (if bodyLang = [] then (if acceptLang = [] then gs "en" else acceptLang)
        else bodyLang) ∈ supported
  · rw [if_pos (by simp [hm]), if_pos hm]
  · rw [if_neg (by simp [hm]), if_neg hm]

/-- C3: ValidatePDF accepts exactly the buffers that both carry the 5-byte
"%PDF-" signature and pass the independent MIME sniff; any buffer shorter
than the signature is rejected. -/
theorem validatePDF_iff :
    ∀ (sniffIsPdf : List Nat → Bool) (data : List Nat),
      (ValidatePDF sniffIsPdf data = true
        ↔ pdfMagic.isPrefixOf data = true ∧ sniffIsPdf data = true)
      ∧ (data.length < 5 → ValidatePDF sniffIsPdf data = false) := by
  intro sniff data
  constructor
  · unfold ValidatePDF
    by_cases h : data.length < pdfMagic.length
    · rw [if_pos h]
      constructor
      · intro hfalse
        exact absurd hfalse (by decide)
      · rintro ⟨hpre, _⟩
        have hp : pdfMagic <+: data := List.isPrefixOf_iff_prefix.mp hpre
        have hle := hp.length_le
        have h5 : pdfMagic.length = 5 := rfl
        omega
    · rw [if_neg h]
      simp [Bool.and_eq_true]
  · intro hl
    unfold ValidatePDF
    rw [if_pos (show data.length < pdfMagic.length by
      have h5 : pdfMagic.length = 5 := rfl
      omega)]

theorem validatePDF_iff_witness :
    ([3, 4] : List Nat).length < 5 ∧ ValidatePDF (fun _ => true) [3, 4] = false :=
  ⟨by decide, (validatePDF_iff (fun _ => true) [3, 4]).2 (by decide)⟩

/-- C8: FillTemplate leaves any template without placeholder tokens
unchanged, substitutes bound keys ("Hi \x7bname\x7d" with name = "Ann"
gives "Hi Ann"), and leaves unbound placeholders verbatim
("\x7bmissing\x7d" stays); it has no failure path (it is a total
function). -/
theorem fillTemplate_behaviour :
    (∀ (template : GoStr) (data : List (GoStr × GoStr)),
      lbrace ∉ template → FillTemplate template data = template)
    ∧ FillTemplate (gs "Hi {name}") [(gs "name", gs "Ann")] = gs "Hi Ann"
    ∧ FillTemplate (gs "Hi {missing}") [(gs "name", gs "Ann")]
        = gs "Hi {missing}" := by
  refine ⟨fillTemplate_no_lbrace, by decide, by decide⟩

theorem fillTemplate_behaviour_witness :
    lbrace ∉ gs "plain text" ∧
      FillTemplate (gs "plain text") [(gs "name", gs "Ann")] = gs "plain text" :=
  ⟨by decide, fillTemplate_behaviour.1 (gs "plain text")
    [(gs "name", gs "Ann")] (by decide)⟩

/-- C5 evaluation at the failing input: the middleware hands every new IP
the single limiter built at setup, so ten requests from 1.1.1.1 inside one
window drain the very bucket that 2.2.2.2 is then served from — the
eleventh request, the first ever from 2.2.2.2, finds no token.  Both IPs
are registered in the limiter map with the same shared limiter identity,
contradicting the per-IP independent buckets the spec (and the code's own
comments) describe. -/
theorem rateLimit_shared_depletion :
    (rlRun (List.replicate 10 (gs "1.1.1.1") ++ [gs "2.2.2.2"]) rlInitial).1
      = List.replicate 10 true ++ [false]
    ∧ List.lookup (gs "1.1.1.1")
        ((rlRun (List.replicate 10 (gs "1.1.1.1") ++ [gs "2.2.2.2"]) rlInitial).2).limiters
        = some sharedLimiterId
    ∧ List.lookup (gs "2.2.2.2")
        ((rlRun (List.replicate 10 (gs "1.1.1.1") ++ [gs "2.2.2.2"]) rlInitial).2).limiters
        = some sharedLimiterId := by
  decide

theorem removeFs_cons_self (p : GoStr) (d : List Nat) (st : FsState)
    (h : p ∉ st.files.map Prod.fst) :
    removeFs ⟨(p, d) :: st.files⟩ p = st := by
  unfold removeFs
  cases st with
  | mk files =>
    congr 1
    show ((p, d) :: files).filter (fun e => e.1 != p) = files
    rw [List.filter_cons]
    rw [if_neg (by simp)]
    exact List.filter_eq_self.mpr
      (fun a ha => bne_iff_ne.mpr
        (fun heq => h (heq ▸ List.mem_map_of_mem Prod.fst ha)))

/-- C4: whenever SaveTempFile returns an error, the store is exactly as it
was before the call (given that the uuid-generated file name is fresh): an
oversized buffer fails with the too-large error before writing anything,
and a buffer whose sniffed MIME type is not application/pdf has its
just-written file deleted again and fails with the invalid-type error. -/
theorem saveTempFile_error_clean :
    ∀ (detectMime sha256hex : List Nat → GoStr) (data : List Nat)
      (label fileID : GoStr) (st : FsState),
      tempPath label fileID ∉ st.files.map Prod.fst →
      (data.length > MaxFileSize →
        SaveTempFile detectMime sha256hex data label fileID st
          = (Except.error SaveError.tooLarge, st))
      ∧ (data.length ≤ MaxFileSize →
          (gs "application/pdf").isPrefixOf (detectMime data) = false →
          SaveTempFile detectMime sha256hex data label fileID st
            = (Except.error SaveError.invalidType, st))
      ∧ (∀ (e : SaveError) (st2 : FsState),
          SaveTempFile detectMime sha256hex data label fileID st
              = (Except.error e, st2) → st2 = st) := by
  intro dm sh data label fileID st hfresh
  refine ⟨?_, ?_, ?_⟩
  · intro hbig
    unfold SaveTempFile
    rw [if_pos hbig]
  · intro hsize hmime
    unfold SaveTempFile
    rw [if_neg (by omega), if_neg (by simp [hmime])]
    rw [removeFs_cons_self _ _ _ hfresh]
  · intro e st2 heq
    unfold SaveTempFile at heq
    by_cases hbig : data.length > MaxFileSize
    · rw [if_pos hbig] at heq
      rw [Prod.mk.injEq] at heq
      exact heq.2.symm
    · rw [if_neg hbig] at heq
      by_cases hm : (gs "application/pdf").isPrefixOf (dm data) = true
      · rw [if_pos hm] at heq
        rw [Prod.mk.injEq] at heq
        exact absurd heq.1 (by simp)
      · rw [if_neg hm] at heq
        rw [Prod.mk.injEq] at heq
        rw [← heq.2, removeFs_cons_self _ _ _ hfresh]

theorem saveTempFile_error_clean_witness :
    SaveTempFile (fun _ => gs "text/plain") (fun _ => gs "h") [9]
        (gs "x") (gs "u") ⟨[]⟩
      = (Except.error SaveError.invalidType, (⟨[]⟩ : FsState)) :=
  (saveTempFile_error_clean (fun _ => gs "text/plain") (fun _ => gs "h") [9]
    (gs "x") (gs "u") ⟨[]⟩ (by decide)).2.1 (by decide) (by decide)

/-- C9: a successful SaveTempFile stores content that reads back
byte-identical to the input, and the returned metadata carries exactly the
hex-encoded SHA-256 of the input (the hash-and-encode collaborator applied
to the input bytes) and the input's length as Size. -/
theorem saveTempFile_roundTrip :
    ∀ (detectMime sha256hex : List Nat → GoStr) (data : List Nat)
      (label fileID : GoStr) (st : FsState) (fi : FileInfo) (st1 : FsState),
      SaveTempFile detectMime sha256hex data label fileID st
          = (Except.ok fi, st1) →
      readFs st1 fi.path = some data
      ∧ fi.sha256 = sha256hex data
      ∧ fi.size = data.length := by
  intro dm sh data label fileID st fi st1 h
  unfold SaveTempFile at h
  by_cases hbig : data.length > MaxFileSize
  · rw [if_pos hbig, Prod.mk.injEq] at h
    exact absurd h.1 (by simp)
  · rw [if_neg hbig] at h
    by_cases hm : (gs "application/pdf").isPrefixOf (dm data) = true
    · rw [if_pos hm, Prod.mk.injEq] at h
      obtain ⟨hfi, hst⟩ := h
      rw [Except.ok.injEq] at hfi
      subst hfi
      subst hst
      refine ⟨?_, rfl, rfl⟩
      show readFs ⟨(tempPath label fileID, data) :: st.files⟩ (tempPath label fileID)
        = some data
      unfold readFs
      simp [List.lookup]
    · rw [if_neg hm, Prod.mk.injEq] at h
      exact absurd h.1 (by simp)

theorem saveTempFile_roundTrip_witness :
    readFs (⟨[(tempPath (gs "invoice") (gs "u"), [37, 80, 68, 70, 45])]⟩ : FsState)
        (tempPath (gs "invoice") (gs "u")) = some [37, 80, 68, 70, 45]
    ∧ gs "h0" = gs "h0" ∧ (5 : Nat) = 5 :=
  saveTempFile_roundTrip (fun _ => gs "application/pdf") (fun _ => gs "h0")
    [37, 80, 68, 70, 45] (gs "invoice") (gs "u") ⟨[]⟩
    ⟨gs "u", tempPath (gs "invoice") (gs "u"), tempName (gs "invoice") (gs "u"), 5,
      gs "h0", gs "application/pdf"⟩
    ⟨[(tempPath (gs "invoice") (gs "u"), [37, 80, 68, 70, 45])]⟩ (by rfl)

/-- A character (U+044F) that occupies two UTF-8 bytes and is not a
reserved markdown character. -/
def twoByteChar : Char := Char.ofNat 1103

/-- A configured tenant whose inline chat template for "en" is 2049
two-byte characters. -/
def svcLong : ServiceConfig :=
  { name := gs "x", smtp := ⟨[], [], [], [], [], []⟩,
    telegram := ⟨gs "t", gs "c"⟩,
    emailTemplates := [],
    telegramTemplates := [(gs "en", List.replicate 2049 twoByteChar)],
    telegramTemplatePaths := [], emailTemplateSubjectPaths := [],
    emailTemplateBodyPaths := [], supportedLangs := [gs "en"] }

/-- C6 counterexample: the length gate compares Go's byte-counting len()
against 4096, not a character count.  A rendered, escaped message of 2049
two-byte characters (4098 UTF-8 bytes) is rejected with the
message-too-long error even though its character count, 2049, does not
exceed 4096 — so "fails iff the escaped text exceeds 4096 characters" is
false as stated. -/
theorem tgLength_counterexample :
    SendTelegramNotification (fun _ => none)
        (fun _ => Except.ok ⟨true, [], 0⟩) svcLong (gs "en") []
      = Except.error TgError.messageTooLong
    ∧ (EscapeMarkdownV2
        (renderTemplate (List.replicate 2049 twoByteChar) [])).length ≤ 4096 := by
  have hmsg : EscapeMarkdownV2 (renderTemplate (List.replicate 2049 twoByteChar) [])
      = List.replicate 2049 twoByteChar := by
    show EscapeMarkdownV2 (List.replicate 2049 twoByteChar) = _
    apply escape_of_no_specials
    intro c hc
    rw [List.eq_of_mem_replicate hc]
    decide
  constructor
  · unfold SendTelegramNotification
    rw [if_neg (by decide)]
    have hget : getLocalizedTemplate (fun _ => none) svcLong (gs "en")
        = Except.ok (List.replicate 2049 twoByteChar) := rfl
    rw [hget]
    simp only [tgAfterTemplate]
    rw [hmsg]
    rw [if_pos (by rw [goLen_replicate]; decide)]
  · rw [hmsg, List.length_replicate]
    omega

theorem tgHandleResponse_ne_tooLong (r : Except TgError TelegramResponse)
    (hr : r ≠ Except.error TgError.messageTooLong) :
    tgHandleResponse r ≠ Except.error TgError.messageTooLong := by
  cases r with
  | error e =>
    intro h
    have he : e = TgError.messageTooLong := by
      have h2 : (Except.error e : Except TgError Unit)
          = Except.error TgError.messageTooLong := h
      rw [Except.error.injEq] at h2
      exact h2
    exact hr (by rw [he])
  | ok resp =>
    show (if resp.ok = true then Except.ok () else Except.error TgError.apiError)
      ≠ Except.error TgError.messageTooLong
    by_cases hok : resp.ok = true
    · rw [if_pos hok]
      exact fun h => Except.noConfusion h
    · rw [if_neg hok]
      intro h
      rw [Except.error.injEq] at h
      exact absurd h (by decide)

/-- C6 amended: for every chat message, SendTelegramNotification first
applies the markdown-escaping transform — inserting a backslash before each
occurrence of the reserved characters (so "a.b!c" becomes "a\.b\!c") — and
then fails with the message-too-long error if and only if the escaped text
exceeds 4096 UTF-8 bytes (Go's len() counts bytes, not characters); an
over-long message is rejected, never truncated: below the cap the full
escaped text is handed to the transport unchanged. -/
theorem tg_escape_then_length :
    ∀ (readDisk : GoStr → Option GoStr)
      (sendReq : GoStr → Except TgError TelegramResponse)
      (svc : ServiceConfig) (lang : GoStr) (data : List (GoStr × GoStr))
      (template : GoStr),
      svc.telegram.Configured = true →
      getLocalizedTemplate readDisk svc lang = Except.ok template →
      (∀ m, sendReq m ≠ Except.error TgError.messageTooLong) →
      (SendTelegramNotification readDisk sendReq svc lang data
          = Except.error TgError.messageTooLong
        ↔ goLen (EscapeMarkdownV2 (renderTemplate template data)) > 4096)
      ∧ (goLen (EscapeMarkdownV2 (renderTemplate template data)) ≤ 4096 →
          SendTelegramNotification readDisk sendReq svc lang data
            = tgHandleResponse
                (sendReq (EscapeMarkdownV2 (renderTemplate template data))))
      ∧ EscapeMarkdownV2 (renderTemplate template data)
          = mapConcat (escChar tgSpecials) (renderTemplate template data)
      ∧ EscapeMarkdownV2 (gs "a.b!c") = gs "a\\.b\\!c" := by
  intro rd sr svc lang data template hconf hget hsr
  have hunf : SendTelegramNotification rd sr svc lang data
      = if goLen (EscapeMarkdownV2 (renderTemplate template data)) > maxMessageLength
        then Except.error TgError.messageTooLong
        else tgHandleResponse (sr (EscapeMarkdownV2 (renderTemplate template data))) := by
    unfold SendTelegramNotification
    rw [hconf, hget]
    rw [if_neg (by decide)]
    simp only [tgAfterTemplate]
  refine ⟨?_, ?_, escapeMarkdownV2_eq _, by decide⟩
  · rw [hunf]
    constructor
    · intro h
      by_cases hl : goLen (EscapeMarkdownV2 (renderTemplate template data))
          > maxMessageLength
      · simpa [maxMessageLength] using hl
      · exfalso
        rw [if_neg hl] at h
        exact tgHandleResponse_ne_tooLong _ (hsr _) h
    · intro h
      rw [if_pos (by simpa [maxMessageLength] using h)]
  · intro hle
    rw [hunf, if_neg (by simp only [maxMessageLength]; omega)]

/-- A configured tenant with a short inline chat template. -/
def svcTiny : ServiceConfig :=
  { name := gs "x", smtp := ⟨[], [], [], [], [], []⟩,
    telegram := ⟨gs "t", gs "c"⟩,
    emailTemplates := [], telegramTemplates := [(gs "en", gs "hi")],
    telegramTemplatePaths := [], emailTemplateSubjectPaths := [],
    emailTemplateBodyPaths := [], supportedLangs := [gs "en"] }

theorem tg_escape_then_length_witness :
    SendTelegramNotification (fun _ => none)
        (fun _ => Except.ok ⟨true, [], 0⟩) svcTiny (gs "en") []
      = Except.ok () := by
  have h := tg_escape_then_length (fun _ => none)
    (fun _ => Except.ok ⟨true, [], 0⟩) svcTiny (gs "en") [] (gs "hi")
    (by decide) (by rfl) (fun m hm => Except.noConfusion hm)
  have h2 := h.2.1 (by decide)
  rw [h2]
  rfl

/-- C7 counterexample: for the email subject (and body), a tenant with no
configured file path and no inline template does not fail with a
missing-template error — the handler's resolution is a total function that
substitutes the built-in default text ("Order Confirmation", and the
built-in body); the inline EmailTemplates map is never consulted. -/
theorem emailTemplate_default_counterexample :
    resolveEmailPart (fun _ => none) [] (gs "en") defaultSubject []
        = gs "Order Confirmation"
    ∧ resolveEmailPart (fun _ => none) [] (gs "en") defaultBody []
        = defaultBody := by
  exact ⟨rfl, rfl⟩

/-- C7 amended: for the chat body, a configured non-empty file path for the
selected language is read fresh from disk on every render and takes
precedence over the inline template (the result is determined by the
current read, the inline text is ignored); with no configured path the
inline text is used and an absent or empty inline entry is a template
error; a tenant with no inline entry for the language and no supported
languages fails with a template error.  For the email subject and body,
only file-path locators are consulted (read fresh per render): with no path
the built-in default is used, and when the read fails the default is kept —
never a missing-template error. -/
theorem template_resolution :
    ∀ (readDisk : GoStr → Option GoStr) (svc : ServiceConfig)
      (lang p t dflt : GoStr) (paths : List (GoStr × GoStr))
      (data : List (GoStr × GoStr)),
      (List.lookup lang svc.telegramTemplates = some t →
        List.lookup lang svc.telegramTemplatePaths = some p → p ≠ [] →
        getLocalizedTemplate readDisk svc lang
          = match readDisk p with
            | some content => Except.ok content
            | none => Except.error TgError.templateLoadFailed)
      ∧ (List.lookup lang svc.telegramTemplates = some t →
          List.lookup lang svc.telegramTemplatePaths = none →
          getLocalizedTemplate readDisk svc lang
            = if t = [] then Except.error TgError.invalidTemplate
              else Except.ok t)
      ∧ (List.lookup lang svc.telegramTemplates = none →
          svc.supportedLangs = [] →
          getLocalizedTemplate readDisk svc lang
            = Except.error TgError.invalidTemplate)
      ∧ (mgetD paths lang = [] →
          resolveEmailPart readDisk paths lang dflt data = dflt)
      ∧ (mgetD paths lang = p → p ≠ [] →
          resolveEmailPart readDisk paths lang dflt data
            = match readDisk p with
              | some raw => FillTemplate raw data
              | none => dflt) := by
  intro readDisk svc lang p t dflt paths data
  refine ⟨?_, ?_, ?_, ?_, ?_⟩
  · intro h1 h2 hp
    have hsel : tgSelectLang svc lang = some lang := by
      unfold tgSelectLang
      rw [h1]
      rfl
    simp only [getLocalizedTemplate, hsel, h2]
    rw [if_neg hp]
  · intro h1 h2
    have hsel : tgSelectLang svc lang = some lang := by
      unfold tgSelectLang
      rw [h1]
      rfl
    simp only [getLocalizedTemplate, hsel, h2, tgInlineTemplate, h1]
  · intro h1 h2
    have hsel : tgSelectLang svc lang = none := by
      unfold tgSelectLang
      rw [h1, h2]
      rfl
    simp only [getLocalizedTemplate, hsel]
  · intro h
    unfold resolveEmailPart
    rw [if_pos h]
  · intro h hp
    unfold resolveEmailPart
    rw [h, if_neg hp]

/-- A tenant with both an inline chat template and a template path for
"en". -/
def svcPath : ServiceConfig :=
  { name := gs "x", smtp := ⟨[], [], [], [], [], []⟩, telegram := ⟨[], []⟩,
    emailTemplates := [], telegramTemplates := [(gs "en", gs "inline")],
    telegramTemplatePaths := [(gs "en", gs "/tpl/en.txt")],
    emailTemplateSubjectPaths := [], emailTemplateBodyPaths := [],
    supportedLangs := [gs "en"] }

theorem template_resolution_witness :
    getLocalizedTemplate (fun _ => some (gs "fresh")) svcPath (gs "en")
      = Except.ok (gs "fresh") := by
  have h := (template_resolution (fun _ => some (gs "fresh")) svcPath (gs "en")
    (gs "/tpl/en.txt") (gs "inline") [] [] []).1 (by rfl) (by rfl) (by decide)
  exact h

theorem readFs_cons_self (p : GoStr) (c : List Nat) (files : List (GoStr × List Nat)) :
    readFs ⟨(p, c) :: files⟩ p = some c := by
  simp [readFs, List.lookup]

theorem saveTempFile_ok_spec (detectMime sha256hex : List Nat → GoStr)
    (data : List Nat) (label fileID : GoStr) (st : FsState)
    (fi : FileInfo) (st1 : FsState)
    (h : SaveTempFile detectMime sha256hex data label fileID st
      = (Except.ok fi, st1)) :
    fi.path = tempPath label fileID
    ∧ st1 = ⟨(tempPath label fileID, data) :: st.files⟩ := by
  unfold SaveTempFile at h
  by_cases hbig : data.length > MaxFileSize
  · rw [if_pos hbig, Prod.mk.injEq] at h
    exact absurd h.1 (by simp)
  · rw [if_neg hbig] at h
    by_cases hm : (gs "application/pdf").isPrefixOf (detectMime data) = true
    · rw [if_pos hm, Prod.mk.injEq] at h
      obtain ⟨hfi, hst⟩ := h
      rw [Except.ok.injEq] at hfi
      subst hfi
      exact ⟨rfl, hst.symm⟩
    · rw [if_neg hm, Prod.mk.injEq] at h
      exact absurd h.1 (by simp)

/-- After a successful saveOrderFiles run over a nonempty file set, at
least one of the returned paths reads back from the final store. -/
theorem saveOrderFiles_readBack (detectMime sha256hex : List Nat → GoStr)
    (uuidGen : Nat → GoStr) :
    ∀ (entries : List (GoStr × List Nat)) (idx : Nat) (st : FsState)
      (acc : List (GoStr × GoStr)) (fps : List (GoStr × GoStr)) (st1 : FsState),
      saveOrderFiles detectMime sha256hex uuidGen entries idx st acc
          = (Except.ok fps, st1) →
      entries ≠ [] →
      ∃ label p content, (label, p) ∈ fps ∧ readFs st1 p = some content := by
  intro entries
  induction entries with
  | nil =>
    intro idx st acc fps st1 h hne
    exact absurd rfl hne
  | cons e rest ih =>
    intro idx st acc fps st1 h hne
    obtain ⟨label, content⟩ := e
    rcases hsv : SaveTempFile detectMime sha256hex content label (uuidGen idx) st
      with ⟨r, stm⟩
    simp only [saveOrderFiles, hsv] at h
    cases r with
    | error e2 =>
      rw [Prod.mk.injEq] at h
      exact absurd h.1 (by simp)
    | ok fi =>
      by_cases hr : rest = []
      · subst hr
        simp only [saveOrderFiles] at h
        rw [Prod.mk.injEq] at h
        obtain ⟨hfps, hst⟩ := h
        rw [Except.ok.injEq] at hfps
        obtain ⟨hpath, hstm⟩ := saveTempFile_ok_spec detectMime sha256hex content
          label (uuidGen idx) st fi stm hsv
        refine ⟨label, fi.path, content, ?_, ?_⟩
        · rw [← hfps]
          exact List.mem_reverse.mpr (List.mem_cons_self _ _)
        · rw [← hst, hstm, hpath]
          exact readFs_cons_self _ _ _
      · exact ih (idx + 1) stm ((label, fi.path) :: acc) fps st1 h hr

theorem prepareAttachments_ok (st1 : FsState) (fps : List (GoStr × GoStr))
    (h : ∃ label p content, (label, p) ∈ fps ∧ readFs st1 p = some content) :
    ∃ atts, PrepareAttachments st1 fps = Except.ok atts := by
  obtain ⟨l, p, c, hmem, hread⟩ := h
  have hmem2 : EmailAttachment.mk (baseName p) c
      ∈ fps.filterMap
        (fun e => (readFs st1 e.2).map (fun cc => EmailAttachment.mk (baseName e.2) cc)) := by
    apply List.mem_filterMap.mpr
    exact ⟨(l, p), hmem, by rw [hread]; rfl⟩
  have hne : (fps.filterMap
      (fun e => (readFs st1 e.2).map (fun cc => EmailAttachment.mk (baseName e.2) cc))).length
      ≠ 0 := by
    intro h0
    rw [List.length_eq_zero] at h0
    rw [h0] at hmem2
    exact (List.not_mem_nil _) hmem2
  unfold PrepareAttachments
  rw [if_neg hne]
  exact ⟨_, rfl⟩

/-- The success path of HandleProjectOrder as one record equation: once the
order is well-formed, the tenant resolves and the files persist, the
response, both channel invocations, the audit attempt and the cleanup are
all fixed, whatever the delivery outcomes are. -/
theorem handler_success_shape
    (sniffIsPdf : List Nat → Bool) (detectMime sha256hex : List Nat → GoStr)
    (uuidGen : Nat → GoStr) (readDisk : GoStr → Option GoStr)
    (emailOutcome : EmailCall → Bool) (tgOutcome : TgCall → Except TgError Unit)
    (dbOk : Bool) (order : ProjectOrder) (serviceName acceptLang : GoStr)
    (svc : ServiceConfig) (realIP userAgent : GoStr) (st : FsState)
    (dbRows : List OrderRow) (filePaths : List (GoStr × GoStr)) (st1 : FsState)
    (h1 : order.fullName ≠ []) (h2 : order.contactInfo ≠ [])
    (h3 : order.paymentMethod ≠ [])
    (hv1 : ValidatePDF sniffIsPdf order.specificationPdf = true)
    (hv2 : ValidatePDF sniffIsPdf order.invoicePdf = true)
    (hv3 : ValidatePDF sniffIsPdf order.contractPdf = true)
    (hsn : serviceName ≠ [])
    (hsave : saveOrderFiles detectMime sha256hex uuidGen (orderFiles order) 0 st []
      = (Except.ok filePaths, st1)) :
    HandleProjectOrder sniffIsPdf detectMime sha256hex uuidGen readDisk
        emailOutcome tgOutcome dbOk order serviceName acceptLang (some svc)
        realIP userAgent st dbRows
      = { status := 200,
          body := [(gs "status", gs "success"), (gs "service", serviceName),
            (gs "lang",
              negotiateLanguage svc.supportedLangs order.language acceptLang)],
          emailCall :=
            match PrepareAttachments st1 filePaths with
            | Except.ok atts =>
              some ⟨svc,
                resolveEmailPart readDisk svc.emailTemplateSubjectPaths
                  (negotiateLanguage svc.supportedLangs order.language acceptLang)
                  defaultSubject
                  (templateData order
                    (negotiateLanguage svc.supportedLangs order.language acceptLang)
                    svc),
                resolveEmailPart readDisk svc.emailTemplateBodyPaths
                  (negotiateLanguage svc.supportedLangs order.language acceptLang)
                  defaultBody
                  (templateData order
                    (negotiateLanguage svc.supportedLangs order.language acceptLang)
                    svc),
                order.contactInfo, atts⟩
            | Except.error _ => none,
          tgCall := some ⟨svc,
            negotiateLanguage svc.supportedLangs order.language acceptLang,
            templateData order
              (negotiateLanguage svc.supportedLangs order.language acceptLang) svc⟩,
          auditAttempt := some (logOrderToDB serviceName
            (negotiateLanguage svc.supportedLangs order.language acceptLang)
            order realIP userAgent),
          dbRows :=
            if dbOk then
              dbRows ++ [logOrderToDB serviceName
                (negotiateLanguage svc.supportedLangs order.language acceptLang)
                order realIP userAgent]
            else dbRows,
          fs := removeMany (filePaths.map Prod.snd) st1 } := by
  unfold HandleProjectOrder
  rw [if_neg (by simp [h1, h2, h3]), if_neg (by simp [hv1, hv2, hv3]), if_neg hsn]
  simp only [hsave]

/-- C1: for every well-formed order for a resolved tenant whose files
persist, the handler attempts the email channel and the chat channel with
inputs fixed by the request alone — the delivery outcomes `emailOutcome`
and `tgOutcome` (including a NotConfigured chat channel) are universally
quantified and appear in none of the right-hand sides, so the failure of
one channel can neither prevent nor alter the other — and the handler still
responds 200 with status "success", attempts the audit row, and writes it
whenever the database accepts it, regardless of any per-channel failure. -/
theorem handler_fanout_independent
    (sniffIsPdf : List Nat → Bool) (detectMime sha256hex : List Nat → GoStr)
    (uuidGen : Nat → GoStr) (readDisk : GoStr → Option GoStr)
    (emailOutcome : EmailCall → Bool) (tgOutcome : TgCall → Except TgError Unit)
    (dbOk : Bool) (order : ProjectOrder) (serviceName acceptLang : GoStr)
    (svc : ServiceConfig) (realIP userAgent : GoStr) (st : FsState)
    (dbRows : List OrderRow) (filePaths : List (GoStr × GoStr)) (st1 : FsState)
    (h1 : order.fullName ≠ []) (h2 : order.contactInfo ≠ [])
    (h3 : order.paymentMethod ≠ [])
    (hv1 : ValidatePDF sniffIsPdf order.specificationPdf = true)
    (hv2 : ValidatePDF sniffIsPdf order.invoicePdf = true)
    (hv3 : ValidatePDF sniffIsPdf order.contractPdf = true)
    (hsn : serviceName ≠ [])
    (hsave : saveOrderFiles detectMime sha256hex uuidGen (orderFiles order) 0 st []
      = (Except.ok filePaths, st1)) :
    (HandleProjectOrder sniffIsPdf detectMime sha256hex uuidGen readDisk
        emailOutcome tgOutcome dbOk order serviceName acceptLang (some svc)
        realIP userAgent st dbRows).status = 200
    ∧ (HandleProjectOrder sniffIsPdf detectMime sha256hex uuidGen readDisk
        emailOutcome tgOutcome dbOk order serviceName acceptLang (some svc)
        realIP userAgent st dbRows).body
      = [(gs "status", gs "success"), (gs "service", serviceName),
         (gs "lang", negotiateLanguage svc.supportedLangs order.language acceptLang)]
    ∧ (HandleProjectOrder sniffIsPdf detectMime sha256hex uuidGen readDisk
        emailOutcome tgOutcome dbOk order serviceName acceptLang (some svc)
        realIP userAgent st dbRows).tgCall
      = some ⟨svc, negotiateLanguage svc.supportedLangs order.language acceptLang,
          templateData order
            (negotiateLanguage svc.supportedLangs order.language acceptLang) svc⟩
    ∧ (∃ atts,
        (HandleProjectOrder sniffIsPdf detectMime sha256hex uuidGen readDisk
            emailOutcome tgOutcome dbOk order serviceName acceptLang (some svc)
            realIP userAgent st dbRows).emailCall
          = some ⟨svc,
              resolveEmailPart readDisk svc.emailTemplateSubjectPaths
                (negotiateLanguage svc.supportedLangs order.language acceptLang)
                defaultSubject
                (templateData order
                  (negotiateLanguage svc.supportedLangs order.language acceptLang)
                  svc),
              resolveEmailPart readDisk svc.emailTemplateBodyPaths
                (negotiateLanguage svc.supportedLangs order.language acceptLang)
                defaultBody
                (templateData order
                  (negotiateLanguage svc.supportedLangs order.language acceptLang)
                  svc),
              order.contactInfo, atts⟩)
    ∧ (HandleProjectOrder sniffIsPdf detectMime sha256hex uuidGen readDisk
        emailOutcome tgOutcome dbOk order serviceName acceptLang (some svc)
        realIP userAgent st dbRows).auditAttempt
      = some (logOrderToDB serviceName
          (negotiateLanguage svc.supportedLangs order.language acceptLang)
          order realIP userAgent)
    ∧ (dbOk = true →
        (HandleProjectOrder sniffIsPdf detectMime sha256hex uuidGen readDisk
            emailOutcome tgOutcome dbOk order serviceName acceptLang (some svc)
            realIP userAgent st dbRows).dbRows
          = dbRows ++ [logOrderToDB serviceName
              (negotiateLanguage svc.supportedLangs order.language acceptLang)
              order realIP userAgent]) := by
  have hres := handler_success_shape sniffIsPdf detectMime sha256hex uuidGen
    readDisk emailOutcome tgOutcome dbOk order serviceName acceptLang svc realIP
    userAgent st dbRows filePaths st1 h1 h2 h3 hv1 hv2 hv3 hsn hsave
  obtain ⟨atts, hatts⟩ := prepareAttachments_ok st1 filePaths
    (saveOrderFiles_readBack detectMime sha256hex uuidGen (orderFiles order)
      0 st [] filePaths st1 hsave (by simp [orderFiles]))
  rw [hres]
  refine ⟨rfl, rfl, rfl, ⟨atts, ?_⟩, rfl, ?_⟩
  · show (match PrepareAttachments st1 filePaths with
      | Except.ok atts => some (⟨_, _, _, _, atts⟩ : EmailCall)
      | Except.error _ => none) = _
    rw [hatts]
  · intro hdb
    show (if dbOk then _ else dbRows) = _
    rw [if_pos hdb]

/-- C10: the language column of the persisted audit row stores the raw
request-body language exactly as submitted, not the negotiated code: the
negotiated code is passed to the logging function (it appears as the lang
argument of logOrderToDB in the audit attempt) and is returned in the HTTP
response's lang field, but the row is built from the order's own Language
field, so the audited language can differ from the response's. -/
theorem audit_language_raw :
    (∀ (serviceName lang : GoStr) (order : ProjectOrder)
      (realIP userAgent : GoStr),
      (logOrderToDB serviceName lang order realIP userAgent).language
        = order.language)
    ∧ (∀ (sniffIsPdf : List Nat → Bool) (detectMime sha256hex : List Nat → GoStr)
        (uuidGen : Nat → GoStr) (readDisk : GoStr → Option GoStr)
        (emailOutcome : EmailCall → Bool)
        (tgOutcome : TgCall → Except TgError Unit)
        (dbOk : Bool) (order : ProjectOrder) (serviceName acceptLang : GoStr)
        (svc : ServiceConfig) (realIP userAgent : GoStr) (st : FsState)
        (dbRows : List OrderRow) (filePaths : List (GoStr × GoStr)) (st1 : FsState),
        order.fullName ≠ [] → order.contactInfo ≠ [] →
        order.paymentMethod ≠ [] →
        ValidatePDF sniffIsPdf order.specificationPdf = true →
        ValidatePDF sniffIsPdf order.invoicePdf = true →
        ValidatePDF sniffIsPdf order.contractPdf = true →
        serviceName ≠ [] →
        saveOrderFiles detectMime sha256hex uuidGen (orderFiles order) 0 st []
          = (Except.ok filePaths, st1) →
        (HandleProjectOrder sniffIsPdf detectMime sha256hex uuidGen readDisk
            emailOutcome tgOutcome dbOk order serviceName acceptLang (some svc)
            realIP userAgent st dbRows).auditAttempt
          = some (logOrderToDB serviceName
              (negotiateLanguage svc.supportedLangs order.language acceptLang)
              order realIP userAgent)
        ∧ (HandleProjectOrder sniffIsPdf detectMime sha256hex uuidGen readDisk
            emailOutcome tgOutcome dbOk order serviceName acceptLang (some svc)
            realIP userAgent st dbRows).body
          = [(gs "status", gs "success"), (gs "service", serviceName),
             (gs "lang",
               negotiateLanguage svc.supportedLangs order.language acceptLang)]) := by
  constructor
  · intro serviceName lang order realIP userAgent
    rfl
  · intro sniffIsPdf detectMime sha256hex uuidGen readDisk emailOutcome tgOutcome
      dbOk order serviceName acceptLang svc realIP userAgent st dbRows filePaths
      st1 h1 h2 h3 hv1 hv2 hv3 hsn hsave
    have hres := handler_success_shape sniffIsPdf detectMime sha256hex uuidGen
      readDisk emailOutcome tgOutcome dbOk order serviceName acceptLang svc realIP
      userAgent st dbRows filePaths st1 h1 h2 h3 hv1 hv2 hv3 hsn hsave
    rw [hres]
    exact ⟨rfl, rfl⟩

/-- The bytes of a minimal buffer carrying the PDF signature. -/
def pdfBytes : List Nat := [37, 80, 68, 70, 45]

/-- A concrete well-formed order requesting language "fr". -/
def orderW : ProjectOrder :=
  ⟨gs "Ann Lee", [], [], [], gs "ann@example.com", [], gs "card",
   gs "2025-01-01", gs "fr", [], pdfBytes, pdfBytes, pdfBytes⟩

/-- A concrete tenant supporting ["en","ru"] with no channels configured. -/
def svcEn : ServiceConfig :=
  { name := gs "Svc", smtp := ⟨[], [], [], [], [], []⟩, telegram := ⟨[], []⟩,
    emailTemplates := [], telegramTemplates := [], telegramTemplatePaths := [],
    emailTemplateSubjectPaths := [], emailTemplateBodyPaths := [],
    supportedLangs := [gs "en", gs "ru"] }

/-- The paths produced by saving orderW's three files with uuid "u". -/
def fpW : List (GoStr × GoStr) :=
  [(gs "specification", tempPath (gs "specification") (gs "u")),
   (gs "invoice", tempPath (gs "invoice") (gs "u")),
   (gs "contract", tempPath (gs "contract") (gs "u"))]

/-- The store after saving orderW's three files. -/
def stW : FsState :=
  ⟨[(tempPath (gs "contract") (gs "u"), pdfBytes),
    (tempPath (gs "invoice") (gs "u"), pdfBytes),
    (tempPath (gs "specification") (gs "u"), pdfBytes)]⟩

theorem handler_fanout_independent_witness :
    (HandleProjectOrder (fun _ => true) (fun _ => gs "application/pdf")
        (fun _ => gs "h") (fun _ => gs "u") (fun _ => none) (fun _ => true)
        (fun _ => Except.ok ()) true orderW (gs "svc") [] (some svcEn)
        (gs "1.2.3.4") (gs "curl") ⟨[]⟩ []).status = 200 :=
  (handler_fanout_independent (fun _ => true) (fun _ => gs "application/pdf")
    (fun _ => gs "h") (fun _ => gs "u") (fun _ => none) (fun _ => true)
    (fun _ => Except.ok ()) true orderW (gs "svc") [] svcEn
    (gs "1.2.3.4") (gs "curl") ⟨[]⟩ [] fpW stW
    (by decide) (by decide) (by decide) (by decide) (by decide) (by decide)
    (by decide) (by rfl)).1

theorem audit_language_raw_witness :
    (HandleProjectOrder (fun _ => true) (fun _ => gs "application/pdf")
        (fun _ => gs "h") (fun _ => gs "u") (fun _ => none) (fun _ => true)
        (fun _ => Except.ok ()) true orderW (gs "svc") [] (some svcEn)
        (gs "1.2.3.4") (gs "curl") ⟨[]⟩ []).auditAttempt
      = some (logOrderToDB (gs "svc") (gs "en") orderW (gs "1.2.3.4") (gs "curl"))
    ∧ (logOrderToDB (gs "svc") (gs "en") orderW (gs "1.2.3.4") (gs "curl")).language
      = gs "fr" :=
  ⟨(audit_language_raw.2 (fun _ => true) (fun _ => gs "application/pdf")
      (fun _ => gs "h") (fun _ => gs "u") (fun _ => none) (fun _ => true)
      (fun _ => Except.ok ()) true orderW (gs "svc") [] svcEn
      (gs "1.2.3.4") (gs "curl") ⟨[]⟩ [] fpW stW
      (by decide) (by decide) (by decide) (by decide) (by decide) (by decide)
      (by decide) (by rfl)).1,
   audit_language_raw.1 (gs "svc") (gs "en") orderW (gs "1.2.3.4") (gs "curl")⟩

end Axc
